import Mathlib

/-!
Verification of the capture event-decoding pipeline
(`src/capture/src/event.rs` of Neon-20/capture).

The Rust module is embedded shallowly:

* `Json` models `serde_json::Value` (floating-point numbers are not
  modelled; no claim under test involves them — `num` carries the
  mathematical integer of an integral JSON number).
* Rust `String` is modelled by Lean `String`, byte buffers (`Bytes`)
  by `List Nat` with each element a byte value.
* `HashMap<String, Value>` is modelled by an association list built by
  repeated insertion (`mapOfEntries`), so a duplicated JSON key keeps
  the last value, as `HashMap::insert` does.
* The external collaborators of the module — the flate2 gzip
  decompressor, the serde_json text parser and the uuid parser — are
  parameters, bundled in `Externals`; everything that `event.rs`
  itself determines (magic-number sniffing, the serde-derived field
  semantics of `RawEvent` and `RawRequest`, error selection, token
  extraction, key formatting) is defined concretely below.
-/

namespace Capture

/-- A parsed JSON document, standing in for `serde_json::Value`. -/
inductive Json where
  | null : Json
  | bool (b : Bool) : Json
  | num (n : Int) : Json
  | str (s : String) : Json
  | arr (items : List Json) : Json
  | obj (fields : List (String × Json)) : Json

/-- Rust `Value::as_str`: the contained string for a JSON string, else `none`. -/
def Json.asStr : Json → Option String
  | .str s => some s
  | _ => none

/-- Opaque stand-in for `uuid::Uuid`; its text form is kept verbatim. -/
structure Uuid where
  text : String
  deriving DecidableEq, Repr

/-- The `Compression` enum of `event.rs` (`Unsupported` is the default). -/
inductive Compression where
  | Unsupported : Compression
  | Gzip : Compression
  deriving DecidableEq, Repr

/--
The serde-derived `Deserialize` of `Compression` applied to a string
value: the variant renamed `gzip` (with alias `gzip-js`) parses to
`Gzip`; the unrenamed variant parses from its own name `Unsupported`;
every other string is an unknown variant, a deserialization error
(`none`).
-/
def Compression.ofString (s : String) : Option Compression :=
  if s = "gzip" then some .Gzip
  else if s = "gzip-js" then some .Gzip
  else if s = "Unsupported" then some .Unsupported
  else none

/-- The `EventQuery` struct: the decoded query parameters of a request. -/
structure EventQuery where
  compression : Option Compression
  lib_version : Option String
  sent_at : Option Int
  deriving DecidableEq, Repr

/-- The `RawEvent` struct of `event.rs` (field types as modelled above). -/
structure RawEvent where
  token : Option String
  distinct_id : Option String
  uuid : Option Uuid
  event : String
  properties : List (String × Json)
  timestamp : Option String
  offset : Option Int
  set : Option (List (String × Json))
  set_once : Option (List (String × Json))

/-- Rust `HashMap::insert`: replace the value at the key, or append the pair. -/
def mapInsert (m : List (String × Json)) (k : String) (v : Json) :
    List (String × Json) :=
  match m with
  | [] => [(k, v)]
  | (k', v') :: rest =>
    if k' = k then (k, v) :: rest else (k', v') :: mapInsert rest k v

/-- Build a `HashMap` from JSON object entries by repeated insertion. -/
def mapOfEntries (entries : List (String × Json)) : List (String × Json) :=
  entries.foldl (fun m kv => mapInsert m kv.1 kv.2) []

/--
Rust `RawEvent::extract_token`: the explicit `token` field if present,
otherwise the `properties` entry at key `"token"` when it is a JSON
string (`Value::as_str`), otherwise `none`.
-/
def RawEvent.extract_token (e : RawEvent) : Option String :=
  match e.token with
  | some value => some value
  | none => (List.lookup "token" e.properties).bind Json.asStr

/-- The `ProcessedEvent` struct (`sent_at` models `Option<OffsetDateTime>`
as an opaque optional timestamp value). -/
structure ProcessedEvent where
  uuid : Uuid
  distinct_id : String
  ip : String
  data : String
  now : String
  sent_at : Option Int
  token : String
  deriving DecidableEq, Repr

/-- Rust `ProcessedEvent::key`: format the token, a colon, the distinct id. -/
def ProcessedEvent.key (p : ProcessedEvent) : String :=
  p.token ++ ":" ++ p.distinct_id

/-! ### The serde-derived deserialization of `RawEvent` and `RawRequest`

The derive attributes in `event.rs` determine, for a parsed JSON
document, which `RawEvent` it denotes: the `token` field also accepts
the aliases `$token` and `api_key`; `set` and `set_once` are wire-named
`$set` and `$set_once`; `properties` defaults to the empty map when
absent; `Option` fields default to `none` when absent and accept JSON
`null`; `event` is required; a field matched by two entries of the same
object is a duplicate-field error; unknown keys are ignored. -/

/-- Wire names accepted for the `token` field (name plus serde aliases). -/
def tokenKeys : List String := ["token", "$token", "api_key"]

/-- How many entries of a JSON object hit the names of one logical field. -/
def countMatches (keys : List String) (fields : List (String × Json)) : Nat :=
  (fields.filter (fun kv => keys.contains kv.1)).length

/-- The value of the first entry hitting the names of one logical field. -/
def findField (keys : List String) (fields : List (String × Json)) :
    Option Json :=
  (fields.find? (fun kv => keys.contains kv.1)).map (·.2)

/-- Deserialize `Option<String>`: `null` to `none`, a string to `some`. -/
def decodeOptString : Json → Option (Option String)
  | .null => some none
  | .str s => some (some s)
  | _ => none

/-- Deserialize `String`: only a JSON string is accepted. -/
def decodeString : Json → Option String
  | .str s => some s
  | _ => none

/-- Deserialize `Option<Uuid>` through the external uuid parser. -/
def decodeOptUuid (parseUuid : String → Option Uuid) :
    Json → Option (Option Uuid)
  | .null => some none
  | .str s => (parseUuid s).map some
  | _ => none

/-- Deserialize `Option<i64>`: an integral number within the signed
64-bit range; anything else (including out-of-range) is an error. -/
def decodeOptI64 : Json → Option (Option Int)
  | .null => some none
  | .num n => if -(2 ^ 63) ≤ n ∧ n < 2 ^ 63 then some (some n) else none
  | _ => none

/-- Deserialize `HashMap<String, Value>` from a JSON object. -/
def decodeMap : Json → Option (List (String × Json))
  | .obj entries => some (mapOfEntries entries)
  | _ => none

/-- Deserialize `Option<HashMap<String, Value>>`. -/
def decodeOptMap : Json → Option (Option (List (String × Json)))
  | .null => some none
  | .obj entries => some (some (mapOfEntries entries))
  | _ => none

/-- Read one optional logical field: absent yields `none`, present runs
the deserializer of the field (whose failure is a deserialization error). -/
def getOptField {α : Type} (dec : Json → Option (Option α))
    (keys : List String) (fields : List (String × Json)) :
    Option (Option α) :=
  match findField keys fields with
  | none => some none
  | some v => dec v

/-- The serde-derived positional (sequence) deserialization of
`RawEvent`, from the derived visitor for sequences: the elements
supply the nine fields in declaration order, each deserialized at the
type of its field. Every field must be supplied: a shorter sequence
fails at the first missing field without a serde default (every field
after `properties`), and a longer sequence leaves elements over,
which is also an error — so exactly nine elements can succeed. -/
def RawEvent.fromSeq (parseUuid : String → Option Uuid) :
    List Json → Option RawEvent
  | [jtoken, jdid, juuid, jevent, jprops, jts, joff, jset, jsetonce] => do
    let token ← decodeOptString jtoken
    let distinct_id ← decodeOptString jdid
    let uuid ← decodeOptUuid parseUuid juuid
    let event ← decodeString jevent
    let properties ← decodeMap jprops
    let timestamp ← decodeOptString jts
    let offset ← decodeOptI64 joff
    let set ← decodeOptMap jset
    let set_once ← decodeOptMap jsetonce
    pure ⟨token, distinct_id, uuid, event, properties, timestamp,
          offset, set, set_once⟩
  | _ => none

/-- The serde-derived `Deserialize` of `RawEvent` on a parsed document.
A JSON object supplies the fields by their (aliased) wire names: each
logical field may be hit by at most one entry, `event` is required,
`properties` defaults to the empty map. A JSON sequence supplies the
fields positionally (`RawEvent.fromSeq`), as the derived visitor also
accepts. Anything else is an error. -/
def RawEvent.fromJson (parseUuid : String → Option Uuid) :
    Json → Option RawEvent
  | .obj fields =>
    if countMatches tokenKeys fields ≤ 1 ∧
       countMatches ["distinct_id"] fields ≤ 1 ∧
       countMatches ["uuid"] fields ≤ 1 ∧
       countMatches ["event"] fields ≤ 1 ∧
       countMatches ["properties"] fields ≤ 1 ∧
       countMatches ["timestamp"] fields ≤ 1 ∧
       countMatches ["offset"] fields ≤ 1 ∧
       countMatches ["$set"] fields ≤ 1 ∧
       countMatches ["$set_once"] fields ≤ 1 then do
      let token ← getOptField decodeOptString tokenKeys fields
      let distinct_id ← getOptField decodeOptString ["distinct_id"] fields
      let uuid ← getOptField (decodeOptUuid parseUuid) ["uuid"] fields
      let event ← (findField ["event"] fields).bind decodeString
      let properties ←
        match findField ["properties"] fields with
        | none => some []
        | some v => decodeMap v
      let timestamp ← getOptField decodeOptString ["timestamp"] fields
      let offset ← getOptField decodeOptI64 ["offset"] fields
      let set ← getOptField decodeOptMap ["$set"] fields
      let set_once ← getOptField decodeOptMap ["$set_once"] fields
      pure ⟨token, distinct_id, uuid, event, properties, timestamp,
            offset, set, set_once⟩
    else none
  | .arr items => RawEvent.fromSeq parseUuid items
  | _ => none

/-- The `RawRequest` untagged enum of `event.rs`. -/
inductive RawRequest where
  | Batch (events : List RawEvent) : RawRequest
  | One (event : RawEvent) : RawRequest

/-- Rust `RawRequest::events`: a batch as is, a lone event as a
singleton list. -/
def RawRequest.events : RawRequest → List RawEvent
  | .Batch evs => evs
  | .One e => [e]

/-- Deserialize `Vec<RawEvent>`: a JSON array all of whose elements
deserialize. -/
def decodeEventVec (parseUuid : String → Option Uuid) :
    Json → Option (List RawEvent)
  | .arr items => items.mapM (RawEvent.fromJson parseUuid)
  | _ => none

/-- The serde-derived `Deserialize` of the untagged `RawRequest`: try
the variants in declaration order, `Batch` then `One`. -/
def RawRequest.fromJson (parseUuid : String → Option Uuid) (j : Json) :
    Option RawRequest :=
  match decodeEventVec parseUuid j with
  | some evs => some (.Batch evs)
  | none => (RawEvent.fromJson parseUuid j).map .One

/-! ### UTF-8

Rust `String::from_utf8` (and the UTF-8 validation inside
`read_to_string`) is modelled by an explicit UTF-8 codec on `List Nat`
byte buffers. -/

/-- UTF-8 encoding of one Unicode scalar value. -/
def utf8EncodeChar (n : Nat) : List Nat :=
  if n < 0x80 then [n]
  else if n < 0x800 then [0xC0 + n / 64, 0x80 + n % 64]
  else if n < 0x10000 then
    [0xE0 + n / 4096, 0x80 + n / 64 % 64, 0x80 + n % 64]
  else
    [0xF0 + n / 262144, 0x80 + n / 4096 % 64, 0x80 + n / 64 % 64,
     0x80 + n % 64]

/-- UTF-8 encoding of a character sequence. -/
def utf8EncodeChars : List Char → List Nat
  | [] => []
  | c :: cs => utf8EncodeChar c.toNat ++ utf8EncodeChars cs

/-- UTF-8 encoding of a string. -/
def utf8Encode (s : String) : List Nat :=
  utf8EncodeChars s.data

/-- Strict UTF-8 decoding, byte at a time, as the state machine of
the UTF-8 validation of Rust std: the first argument is `none` when the
next byte must be a leading byte, and `some (acc, pending, lo, hi)`
when `pending` continuation bytes are still expected, the next one in
the inclusive range `lo..hi` (the range is narrowed after the leading
bytes `0xE0`, `0xED`, `0xF0` and `0xF4` to exclude overlong forms,
surrogates and values beyond `0x10FFFF`, exactly as Rust does), with
`acc` the scalar value accumulated so far. Bad leading bytes, bad
continuation bytes and truncated sequences all reject the buffer. -/
def utf8DecodeAux : Option (Nat × Nat × Nat × Nat) → List Nat →
    Option (List Char)
  | none, [] => some []
  | some _, [] => none
  | none, b :: rest =>
    if b < 0x80 then
      (utf8DecodeAux none rest).map (fun cs => Char.ofNat b :: cs)
    else if b < 0xC2 then none
    else if b < 0xE0 then
      utf8DecodeAux (some (b - 0xC0, 1, 0x80, 0xBF)) rest
    else if b = 0xE0 then
      utf8DecodeAux (some (0, 2, 0xA0, 0xBF)) rest
    else if b = 0xED then
      utf8DecodeAux (some (13, 2, 0x80, 0x9F)) rest
    else if b < 0xF0 then
      utf8DecodeAux (some (b - 0xE0, 2, 0x80, 0xBF)) rest
    else if b = 0xF0 then
      utf8DecodeAux (some (0, 3, 0x90, 0xBF)) rest
    else if b = 0xF4 then
      utf8DecodeAux (some (4, 3, 0x80, 0x8F)) rest
    else if b < 0xF5 then
      utf8DecodeAux (some (b - 0xF0, 3, 0x80, 0xBF)) rest
    else none
  | some (acc, pending, lo, hi), b :: rest =>
    if lo ≤ b ∧ b ≤ hi then
      if pending = 1 then
        (utf8DecodeAux none rest).map
          (fun cs => Char.ofNat (acc * 64 + (b - 0x80)) :: cs)
      else
        utf8DecodeAux (some (acc * 64 + (b - 0x80), pending - 1,
          0x80, 0xBF)) rest
    else none

/-- UTF-8 decoding of a whole byte buffer into characters. -/
def utf8DecodeChars (b : List Nat) : Option (List Char) :=
  utf8DecodeAux none b

/-- UTF-8 decoding of a byte buffer into a string. -/
def utf8Decode (b : List Nat) : Option String :=
  (utf8DecodeChars b).map String.mk

/-! ### The decode pipeline -/

/-- Modelled from the spec: `CaptureError` lives in `crate::api`
(`src/capture/src/api.rs`), a file not among the provided sources; the
spec asks for a single error type distinguishing at least a
request-decoding error with a string detail and a JSON-parse failure
carrying the message of the underlying parser. -/
inductive CaptureError where
  | RequestDecodingError (detail : String) : CaptureError
  | RequestParseError (detail : String) : CaptureError
  deriving DecidableEq, Repr

/-- Modelled from the spec: the `From<serde_json::Error>` conversion
applied by the `?` operator in `from_bytes` lives in `crate::api`; per
the spec the resulting parse failure carries the message of the
underlying parser. -/
def jsonErrorToCaptureError (msg : String) : CaptureError :=
  .RequestParseError msg

/-- Message produced by serde when a document matches no variant of the
untagged `RawRequest` enum. -/
def untaggedVariantError : String :=
  "data did not match any variant of untagged enum RawRequest"

/-- The external collaborators of `event.rs`: the flate2 gzip
decompressor (bytes to decompressed bytes, `none` on a corrupt
stream), the serde_json text parser (text to document, or the error message
of the parser) and the uuid string parser. -/
structure Externals where
  gunzip : List Nat → Option (List Nat)
  parseJson : String → Except String Json
  parseUuid : String → Option Uuid

/-- The gzip magic numbers of `event.rs`: `[0x1f, 0x8b, 8]`. -/
def GZIP_MAGIC_NUMBERS : List Nat := [0x1f, 0x8b, 8]

/-- Result of sniffing the compression of a buffer from its leading bytes. -/
inductive PayloadClass where
  | Gzip : PayloadClass
  | PlainText : PayloadClass
  deriving DecidableEq, Repr

/-- Compression sniffing: `bytes.starts_with(&GZIP_MAGIC_NUMBERS)`. -/
def sniff (bytes : List Nat) : PayloadClass :=
  if GZIP_MAGIC_NUMBERS.isPrefixOf bytes then .Gzip else .PlainText

/-- The payload-decoding half of `from_bytes`: on the gzip branch,
`GzDecoder::read_to_string` both decompresses and validates UTF-8, any
failure becoming `RequestDecodingError "invalid gzip data"`; on the
plain branch, `String::from_utf8` failure becomes
`RequestDecodingError "invalid body encoding"`. -/
def decodePayload (ext : Externals) (bytes : List Nat) :
    Except CaptureError String :=
  match sniff bytes with
  | .Gzip =>
    match (ext.gunzip bytes).bind utf8Decode with
    | some s => .ok s
    | none => .error (.RequestDecodingError "invalid gzip data")
  | .PlainText =>
    match utf8Decode bytes with
    | some s => .ok s
    | none => .error (.RequestDecodingError "invalid body encoding")

/-- Rust `RawEvent::from_bytes`: sniff and decode the payload, parse it
as JSON, deserialize the untagged `RawRequest`, flatten to the event
list. The query parameters are received and ignored. -/
def RawEvent.from_bytes (ext : Externals) (_query : EventQuery)
    (bytes : List Nat) : Except CaptureError (List RawEvent) :=
  match decodePayload ext bytes with
  | .error e => .error e
  | .ok payload =>
    match ext.parseJson payload with
    | .error msg => .error (jsonErrorToCaptureError msg)
    | .ok j =>
      match RawRequest.fromJson ext.parseUuid j with
      | none => .error (jsonErrorToCaptureError untaggedVariantError)
      | some req => .ok req.events

/-! ### Concrete sample values used by witnesses and counterexamples -/

/-- A query value with all parameters absent. -/
def q0 : EventQuery := ⟨none, none, none⟩

/-- A second query value, declaring the gzip hint. -/
def q1 : EventQuery := ⟨some .Gzip, some "1.0", some 7⟩

/-- A uuid parser accepting nothing (the uuid field is unused here). -/
def noUuid : String → Option Uuid := fun _ => none

/-- Record with an explicit token and a conflicting properties token. -/
def tokEvent : RawEvent :=
  ⟨some "t1", none, none, "a", [("token", Json.str "p")],
   none, none, none, none⟩

/-- Record with no explicit token and a properties token string. -/
def propTokenEvent : RawEvent :=
  ⟨none, none, none, "x", [("token", Json.str "abc")],
   none, none, none, none⟩

/-- Record whose explicit token is present but empty, while the
properties map carries the token string `"abc"`. -/
def emptyTokenEvent : RawEvent :=
  ⟨some "", none, none, "e", [("token", Json.str "abc")],
   none, none, none, none⟩

/-! ### Helper lemmas -/

/-- Binding an option into the constantly-`none` continuation is `none`. -/
theorem option_bind_const_none {α β : Type} (x : Option α) :
    (x.bind fun _ => (none : Option β)) = none := by
  cases x <;> rfl

/-- Matching the gzip magic numbers is exactly having first three bytes
`0x1f`, `0x8b`, `0x08`. -/
theorem magic_isPrefixOf_iff (b : List Nat) :
    GZIP_MAGIC_NUMBERS.isPrefixOf b = true ↔
      b.take 3 = [0x1f, 0x8b, 0x08] := by
  rcases b with _ | ⟨x, _ | ⟨y, _ | ⟨z, t⟩⟩⟩ <;>
    simp [GZIP_MAGIC_NUMBERS, List.isPrefixOf]
  omega

/-- Lists produced by a successful option `mapM` have the length of the input. -/
theorem length_of_mapM_eq_some {α β : Type} (f : α → Option β) :
    ∀ (xs : List α) (ys : List β), xs.mapM f = some ys →
      ys.length = xs.length := by
  intro xs
  induction xs with
  | nil =>
    intro ys h
    simp only [List.mapM_nil, pure, Option.some.injEq] at h
    simp [← h]
  | cons x xs ih =>
    intro ys h
    simp only [List.mapM_cons, pure, Option.bind_eq_bind,
      Option.bind_eq_some, Option.some.injEq] at h
    obtain ⟨y, _, ys', hys', rfl⟩ := h
    simp [ih ys' hys']

/-! ### Claim theorems -/

/-- C1, as frozen, is false of the code: `extract_token` returns the
explicit token field even when it is the empty string, instead of
falling back to the `properties` token; on `emptyTokenEvent` it
returns `some ""` and not the `properties` string `"abc"` that the
claimed precedence demands. -/
theorem extract_token_empty_explicit_counterexample :
    RawEvent.extract_token emptyTokenEvent = some "" ∧
    RawEvent.extract_token emptyTokenEvent ≠ some "abc" := by
  exact ⟨rfl, by decide⟩

/-- C1 (amended: a present token field wins even when empty): token
extraction returns the explicit token field whenever it is present —
empty or not — otherwise returns the `properties` entry at key
`"token"` when that is a JSON string, otherwise `none`; and it
consults nothing besides the token field and that one key. -/
theorem extract_token_precedence (e e' : RawEvent) :
    (∀ t, e.token = some t → e.extract_token = some t) ∧
    (e.token = none → ∀ s,
      List.lookup "token" e.properties = some (Json.str s) →
      e.extract_token = some s) ∧
    (e.token = none →
      (List.lookup "token" e.properties).bind Json.asStr = none →
      e.extract_token = none) ∧
    (e.token = e'.token →
      List.lookup "token" e.properties = List.lookup "token" e'.properties →
      e.extract_token = e'.extract_token) := by
  refine ⟨fun t ht => ?_, fun hn s hs => ?_, fun hn h2 => ?_,
    fun h1 h2 => ?_⟩
  · simp [RawEvent.extract_token, ht]
  · simp [RawEvent.extract_token, hn, hs, Json.asStr]
  · simp [RawEvent.extract_token, hn, h2]
  · unfold RawEvent.extract_token
    rw [h1, h2]

/-- Witness for the amended C1 at two concrete records: the explicit
token wins on `tokEvent`, the properties token is used on
`propTokenEvent`. -/
theorem extract_token_precedence_witness :
    RawEvent.extract_token tokEvent = some "t1" ∧
    RawEvent.extract_token propTokenEvent = some "abc" :=
  ⟨(extract_token_precedence tokEvent tokEvent).1 "t1" rfl,
   (extract_token_precedence propTokenEvent propTokenEvent).2.1 rfl
     "abc" rfl⟩

/-- C6: the key of a processed event is exactly the token, one colon,
and the distinct id, with no escaping; and it is deterministic in the
(token, distinct id) pair. -/
theorem processed_event_key_spec (p q : ProcessedEvent) :
    p.key = p.token ++ ":" ++ p.distinct_id ∧
    (p.token = q.token → p.distinct_id = q.distinct_id →
      p.key = q.key) := by
  refine ⟨rfl, fun h1 h2 => ?_⟩
  simp [ProcessedEvent.key, h1, h2]

/-- Sample processed event with token `t1` and distinct id `d1`. -/
def sampleProcessed : ProcessedEvent :=
  ⟨⟨"u"⟩, "d1", "127.0.0.1", "payload", "now", none, "t1"⟩

/-- A processed event equal to `sampleProcessed` only in token and
distinct id. -/
def sampleProcessed2 : ProcessedEvent :=
  ⟨⟨"v"⟩, "d1", "10.0.0.1", "other", "later", some 3, "t1"⟩

/-- Witness for C6: two events agreeing on (token, distinct id) but
nothing else get the identical key `"t1:d1"`. -/
theorem processed_event_key_witness :
    ProcessedEvent.key sampleProcessed = ProcessedEvent.key sampleProcessed2 ∧
    ProcessedEvent.key sampleProcessed = "t1:d1" :=
  ⟨(processed_event_key_spec sampleProcessed sampleProcessed2).2 rfl rfl,
   ((processed_event_key_spec sampleProcessed sampleProcessed2).1).trans
     (by decide)⟩

/-- C9, as frozen, is false of the code: the derived deserializer of
`Compression` rejects unknown variant strings instead of mapping them
to `Unsupported`; the value `deflate` is a deserialization error. -/
theorem compression_unknown_counterexample :
    Compression.ofString "deflate" = none ∧
    Compression.ofString "deflate" ≠ some Compression.Unsupported := by
  decide

/-- C9 (amended: unknown present values fail instead of defaulting):
the values `gzip` and `gzip-js` parse to the Gzip hint, the variant
name `Unsupported` parses to Unsupported, and every other value is an
unknown-variant deserialization error; only an absent parameter yields
the default Unsupported hint. -/
theorem compression_ofString_spec (s : String) :
    Compression.ofString "gzip" = some Compression.Gzip ∧
    Compression.ofString "gzip-js" = some Compression.Gzip ∧
    Compression.ofString "Unsupported" = some Compression.Unsupported ∧
    (s ≠ "gzip" → s ≠ "gzip-js" → s ≠ "Unsupported" →
      Compression.ofString s = none) := by
  refine ⟨by decide, by decide, by decide, fun h1 h2 h3 => ?_⟩
  simp [Compression.ofString, h1, h2, h3]

/-- Witness for the amended C9 at the concrete unknown value `br`. -/
theorem compression_ofString_witness :
    Compression.ofString "br" = none :=
  (compression_ofString_spec "br").2.2.2 (by decide) (by decide)
    (by decide)

/-- C10: the whole decode result never depends on the query
parameters — any two query values give the same output on every
buffer and every behavior of the external collaborators. -/
theorem from_bytes_query_independent (ext : Externals)
    (qa qb : EventQuery) (b : List Nat) :
    RawEvent.from_bytes ext qa b = RawEvent.from_bytes ext qb b := rfl

/-- C2: the pipeline classifies a buffer as gzip exactly when its
first three bytes are `0x1f 0x8b 0x08` (short buffers are plain text),
and the declared compression hint changes nothing about the decode. -/
theorem sniff_gzip_iff (b : List Nat) :
    (sniff b = PayloadClass.Gzip ↔ b.take 3 = [0x1f, 0x8b, 0x08]) ∧
    (∀ ext qa qb, RawEvent.from_bytes ext qa b =
      RawEvent.from_bytes ext qb b) := by
  refine ⟨?_, fun ext qa qb => rfl⟩
  rw [← magic_isPrefixOf_iff]
  unfold sniff
  constructor
  · intro h
    by_contra hcontra
    rw [Bool.not_eq_true] at hcontra
    rw [hcontra] at h
    simp at h
  · intro h
    rw [h]
    rfl

/-- Witness for C2: the magic-prefixed buffer `[0x1f, 0x8b, 0x08, 0]`
is classified gzip. -/
theorem sniff_gzip_iff_witness :
    sniff [0x1f, 0x8b, 0x08, 0] = PayloadClass.Gzip :=
  (sniff_gzip_iff [0x1f, 0x8b, 0x08, 0]).1.mpr (by decide)

/-- Stepping the decoder over an ASCII byte. -/
theorem utf8Lead1 (b : Nat) (l : List Nat) (h : b < 0x80) :
    utf8DecodeAux none (b :: l) =
      (utf8DecodeAux none l).map (fun cs => Char.ofNat b :: cs) := by
  simp only [utf8DecodeAux, if_pos h]

/-- Stepping the decoder over a two-byte leading byte. -/
theorem utf8Lead2 (b : Nat) (l : List Nat) (hlo : 0xC2 ≤ b)
    (hhi : b < 0xE0) :
    utf8DecodeAux none (b :: l) =
      utf8DecodeAux (some (b - 0xC0, 1, 0x80, 0xBF)) l := by
  simp only [utf8DecodeAux]
  repeat' split
  all_goals first
    | omega
    | (exact absurd trivial (by assumption))
    | rfl

/-- Stepping the decoder over the leading byte `0xE0`. -/
theorem utf8Lead3a (b : Nat) (l : List Nat) (h : b = 0xE0) :
    utf8DecodeAux none (b :: l) =
      utf8DecodeAux (some (0, 2, 0xA0, 0xBF)) l := by
  subst h
  simp only [utf8DecodeAux]
  repeat' split
  all_goals first
    | omega
    | (exact absurd trivial (by assumption))
    | rfl

/-- Stepping the decoder over the leading byte `0xED`. -/
theorem utf8Lead3b (b : Nat) (l : List Nat) (h : b = 0xED) :
    utf8DecodeAux none (b :: l) =
      utf8DecodeAux (some (13, 2, 0x80, 0x9F)) l := by
  subst h
  simp only [utf8DecodeAux]
  repeat' split
  all_goals first
    | omega
    | (exact absurd trivial (by assumption))
    | rfl

/-- Stepping the decoder over the other three-byte leading bytes. -/
theorem utf8Lead3c (b : Nat) (l : List Nat) (hlo : 0xE0 < b)
    (hne : b ≠ 0xED) (hhi : b < 0xF0) :
    utf8DecodeAux none (b :: l) =
      utf8DecodeAux (some (b - 0xE0, 2, 0x80, 0xBF)) l := by
  simp only [utf8DecodeAux]
  repeat' split
  all_goals first
    | omega
    | (exact absurd trivial (by assumption))
    | rfl

/-- Stepping the decoder over the leading byte `0xF0`. -/
theorem utf8Lead4a (b : Nat) (l : List Nat) (h : b = 0xF0) :
    utf8DecodeAux none (b :: l) =
      utf8DecodeAux (some (0, 3, 0x90, 0xBF)) l := by
  subst h
  simp only [utf8DecodeAux]
  repeat' split
  all_goals first
    | omega
    | (exact absurd trivial (by assumption))
    | rfl

/-- Stepping the decoder over the leading byte `0xF4`. -/
theorem utf8Lead4b (b : Nat) (l : List Nat) (h : b = 0xF4) :
    utf8DecodeAux none (b :: l) =
      utf8DecodeAux (some (4, 3, 0x80, 0x8F)) l := by
  subst h
  simp only [utf8DecodeAux]
  repeat' split
  all_goals first
    | omega
    | (exact absurd trivial (by assumption))
    | rfl

/-- Stepping the decoder over the other four-byte leading bytes. -/
theorem utf8Lead4c (b : Nat) (l : List Nat) (hlo : 0xF0 < b)
    (hne : b ≠ 0xF4) (hhi : b < 0xF5) :
    utf8DecodeAux none (b :: l) =
      utf8DecodeAux (some (b - 0xF0, 3, 0x80, 0xBF)) l := by
  simp only [utf8DecodeAux]
  repeat' split
  all_goals first
    | omega
    | (exact absurd trivial (by assumption))
    | rfl

/-- Stepping the decoder over a non-final continuation byte. -/
theorem utf8Cont (acc pending lo hi b : Nat) (l : List Nat)
    (hlo : lo ≤ b) (hhi : b ≤ hi) (hp : 2 ≤ pending) :
    utf8DecodeAux (some (acc, pending, lo, hi)) (b :: l) =
      utf8DecodeAux (some (acc * 64 + (b - 0x80), pending - 1,
        0x80, 0xBF)) l := by
  simp only [utf8DecodeAux]
  repeat' split
  all_goals first
    | omega
    | (exact absurd trivial (by assumption))
    | (exact absurd (And.intro hlo hhi) (by assumption))
    | rfl

/-- Stepping the decoder over the final continuation byte of a
character: the accumulated scalar is emitted. -/
theorem utf8ContLast (acc pending lo hi b : Nat) (l : List Nat)
    (hlo : lo ≤ b) (hhi : b ≤ hi) (hp : pending = 1) :
    utf8DecodeAux (some (acc, pending, lo, hi)) (b :: l) =
      (utf8DecodeAux none l).map
        (fun cs => Char.ofNat (acc * 64 + (b - 0x80)) :: cs) := by
  subst hp
  simp only [utf8DecodeAux]
  repeat' split
  all_goals first
    | omega
    | (exact absurd trivial (by assumption))
    | (exact absurd (And.intro hlo hhi) (by assumption))
    | rfl

/-- Decoding the UTF-8 encoding of one character, followed by any
tail, yields that character and continues on the tail. -/
theorem utf8DecodeAux_encodeChar (c : Char) (rest : List Nat) :
    utf8DecodeAux none (utf8EncodeChar c.toNat ++ rest) =
      (utf8DecodeAux none rest).map (fun cs => c :: cs) := by
  have hv : c.toNat < 0xd800 ∨ (0xdfff < c.toNat ∧ c.toNat < 0x110000) :=
    c.valid
  by_cases h1 : c.toNat < 0x80
  · simp only [utf8EncodeChar, if_pos h1, List.singleton_append]
    rw [utf8Lead1 _ _ h1, Char.ofNat_toNat]
  · by_cases h2 : c.toNat < 0x800
    · simp only [utf8EncodeChar, if_neg h1, if_pos h2, List.cons_append,
        List.nil_append]
      rw [utf8Lead2 _ _ (by omega) (by omega),
        utf8ContLast _ _ _ _ _ _ (by omega) (by omega) (by omega)]
      have harg : (0xC0 + c.toNat / 64 - 0xC0) * 64 +
          (0x80 + c.toNat % 64 - 0x80) = c.toNat := by omega
      rw [harg, Char.ofNat_toNat]
    · by_cases h3 : c.toNat < 0x10000
      · simp only [utf8EncodeChar, if_neg h1, if_neg h2, if_pos h3,
          List.cons_append, List.nil_append]
        by_cases hA : c.toNat < 0x1000
        · rw [utf8Lead3a _ _ (by omega),
            utf8Cont _ _ _ _ _ _ (by omega) (by omega) (by omega),
            utf8ContLast _ _ _ _ _ _ (by omega) (by omega) (by omega)]
          have harg : (0 * 64 + (0x80 + c.toNat / 64 % 64 - 0x80)) * 64 +
              (0x80 + c.toNat % 64 - 0x80) = c.toNat := by omega
          rw [harg, Char.ofNat_toNat]
        · by_cases hB : c.toNat / 4096 = 13
          · rw [utf8Lead3b _ _ (by omega),
              utf8Cont _ _ _ _ _ _ (by omega) (by omega) (by omega),
              utf8ContLast _ _ _ _ _ _ (by omega) (by omega) (by omega)]
            have harg : (13 * 64 + (0x80 + c.toNat / 64 % 64 - 0x80)) *
                64 + (0x80 + c.toNat % 64 - 0x80) = c.toNat := by omega
            rw [harg, Char.ofNat_toNat]
          · rw [utf8Lead3c _ _ (by omega) (by omega) (by omega),
              utf8Cont _ _ _ _ _ _ (by omega) (by omega) (by omega),
              utf8ContLast _ _ _ _ _ _ (by omega) (by omega) (by omega)]
            have harg : ((0xE0 + c.toNat / 4096 - 0xE0) * 64 +
                (0x80 + c.toNat / 64 % 64 - 0x80)) * 64 +
                (0x80 + c.toNat % 64 - 0x80) = c.toNat := by omega
            rw [harg, Char.ofNat_toNat]
      · simp only [utf8EncodeChar, if_neg h1, if_neg h2, if_neg h3,
          List.cons_append, List.nil_append]
        by_cases hA : c.toNat < 0x40000
        · rw [utf8Lead4a _ _ (by omega),
            utf8Cont _ _ _ _ _ _ (by omega) (by omega) (by omega),
            utf8Cont _ _ _ _ _ _ (by omega) (by omega) (by omega),
            utf8ContLast _ _ _ _ _ _ (by omega) (by omega) (by omega)]
          have harg : ((0 * 64 + (0x80 + c.toNat / 4096 % 64 - 0x80)) *
              64 + (0x80 + c.toNat / 64 % 64 - 0x80)) * 64 +
              (0x80 + c.toNat % 64 - 0x80) = c.toNat := by omega
          rw [harg, Char.ofNat_toNat]
        · by_cases hB : c.toNat / 262144 = 4
          · rw [utf8Lead4b _ _ (by omega),
              utf8Cont _ _ _ _ _ _ (by omega) (by omega) (by omega),
              utf8Cont _ _ _ _ _ _ (by omega) (by omega) (by omega),
              utf8ContLast _ _ _ _ _ _ (by omega) (by omega) (by omega)]
            have harg : ((4 * 64 + (0x80 + c.toNat / 4096 % 64 - 0x80)) *
                64 + (0x80 + c.toNat / 64 % 64 - 0x80)) * 64 +
                (0x80 + c.toNat % 64 - 0x80) = c.toNat := by omega
            rw [harg, Char.ofNat_toNat]
          · rw [utf8Lead4c _ _ (by omega) (by omega) (by omega),
              utf8Cont _ _ _ _ _ _ (by omega) (by omega) (by omega),
              utf8Cont _ _ _ _ _ _ (by omega) (by omega) (by omega),
              utf8ContLast _ _ _ _ _ _ (by omega) (by omega) (by omega)]
            have harg : (((0xF0 + c.toNat / 262144 - 0xF0) * 64 +
                (0x80 + c.toNat / 4096 % 64 - 0x80)) * 64 +
                (0x80 + c.toNat / 64 % 64 - 0x80)) * 64 +
                (0x80 + c.toNat % 64 - 0x80) = c.toNat := by omega
            rw [harg, Char.ofNat_toNat]

/-- The UTF-8 decoder inverts the UTF-8 encoder on character lists. -/
theorem utf8DecodeAux_encodeChars (cs : List Char) :
    utf8DecodeAux none (utf8EncodeChars cs) = some cs := by
  induction cs with
  | nil => rfl
  | cons c cs ih =>
    simp only [utf8EncodeChars]
    rw [utf8DecodeAux_encodeChar, ih]
    rfl

/-- The UTF-8 decoder inverts the UTF-8 encoder on strings. -/
theorem utf8Decode_encode (s : String) :
    utf8Decode (utf8Encode s) = some s := by
  unfold utf8Decode utf8DecodeChars utf8Encode
  rw [utf8DecodeAux_encodeChars]
  rfl

/-- No UTF-8 encoded string starts with the gzip magic numbers: after
the byte `0x1f` (a one-byte character), the byte `0x8b` could only be
a continuation byte, never a leading one. -/
theorem utf8Encode_not_gzip (s : String) :
    GZIP_MAGIC_NUMBERS.isPrefixOf (utf8Encode s) = false := by
  by_contra hne
  rw [Bool.not_eq_false, magic_isPrefixOf_iff] at hne
  have hshape : utf8Encode s =
      0x1f :: 0x8b :: 0x08 :: (utf8Encode s).drop 3 := by
    conv_lhs => rw [← List.take_append_drop 3 (utf8Encode s)]
    rw [hne]
    rfl
  have hd := utf8DecodeAux_encodeChars s.data
  rw [show utf8EncodeChars s.data = utf8Encode s from rfl, hshape] at hd
  simp [utf8DecodeAux] at hd

/-- Payload decoding succeeds on the gzip branch when the buffer is
magic-prefixed and decompresses to the UTF-8 bytes of a string. -/
theorem decodePayload_gzip_ok (ext : Externals) (b : List Nat)
    (s : String) (hmag : GZIP_MAGIC_NUMBERS.isPrefixOf b = true)
    (hgz : ext.gunzip b = some (utf8Encode s)) :
    decodePayload ext b = .ok s := by
  simp [decodePayload, sniff, hmag, hgz, utf8Decode_encode]

/-- Payload decoding of the UTF-8 bytes of a string takes the plain
branch and returns the string. -/
theorem decodePayload_plain_encode (ext : Externals) (s : String) :
    decodePayload ext (utf8Encode s) = .ok s := by
  simp [decodePayload, sniff, utf8Encode_not_gzip, utf8Decode_encode]

/-- C8: when a magic-prefixed buffer decompresses exactly to the UTF-8
bytes of a text whose direct decode yields some events, decoding the
compressed buffer yields the same events. -/
theorem gzip_roundtrip (ext : Externals) (q : EventQuery)
    (text : String) (ctext : List Nat) (es : List RawEvent) :
    GZIP_MAGIC_NUMBERS.isPrefixOf ctext = true →
    ext.gunzip ctext = some (utf8Encode text) →
    RawEvent.from_bytes ext q (utf8Encode text) = .ok es →
    RawEvent.from_bytes ext q ctext = .ok es := by
  intro hmag hgz hplain
  unfold RawEvent.from_bytes at hplain ⊢
  rw [decodePayload_gzip_ok ext ctext text hmag hgz]
  rw [decodePayload_plain_encode ext text] at hplain
  exact hplain

/-- Externals whose gunzip always fails and whose parser accepts
everything as the empty JSON array. -/
def extGzFail : Externals :=
  ⟨fun _ => none, fun _ => .ok (Json.arr []), noUuid⟩

/-- Externals that gunzip only the bare magic header to the byte of
`"x"` and parse everything to the empty JSON array. -/
def extGzX : Externals :=
  ⟨fun b => if b = [0x1f, 0x8b, 0x08] then some (utf8Encode "x")
            else none,
   fun _ => .ok (Json.arr []), noUuid⟩

/-- Witness for C8: a concrete compressed buffer decodes to the same
(empty) event list as the plain text it decompresses to. -/
theorem gzip_roundtrip_witness :
    RawEvent.from_bytes extGzX q0 [0x1f, 0x8b, 0x08] = .ok [] :=
  gzip_roundtrip extGzX q0 "x" [0x1f, 0x8b, 0x08] [] (by decide) rfl rfl

/-- C3: a magic-prefixed buffer whose decompression (or decompressed
UTF-8 validation) fails decodes to exactly the error
`invalid gzip data`; a non-magic buffer that is not valid UTF-8
decodes to exactly the error `invalid body encoding`; and every
decode is atomic: either an event list or a single error. -/
theorem from_bytes_decoding_errors (ext : Externals) (q : EventQuery)
    (b : List Nat) :
    (b.take 3 = [0x1f, 0x8b, 0x08] →
      (ext.gunzip b).bind utf8Decode = none →
      RawEvent.from_bytes ext q b =
        .error (.RequestDecodingError "invalid gzip data")) ∧
    (b.take 3 ≠ [0x1f, 0x8b, 0x08] → utf8Decode b = none →
      RawEvent.from_bytes ext q b =
        .error (.RequestDecodingError "invalid body encoding")) ∧
    ((∃ evs, RawEvent.from_bytes ext q b = .ok evs) ∨
     (∃ err, RawEvent.from_bytes ext q b = .error err)) := by
  refine ⟨fun h hz => ?_, fun h hu => ?_, ?_⟩
  · have hmag := (magic_isPrefixOf_iff b).mpr h
    simp [RawEvent.from_bytes, decodePayload, sniff, hmag, hz]
  · have hmag : GZIP_MAGIC_NUMBERS.isPrefixOf b = false := by
      rw [← Bool.not_eq_true, magic_isPrefixOf_iff]
      exact h
    simp [RawEvent.from_bytes, decodePayload, sniff, hmag, hu]
  · rcases hr : RawEvent.from_bytes ext q b with err | evs
    · exact Or.inr ⟨err, rfl⟩
    · exact Or.inl ⟨evs, rfl⟩

/-- Witness for C3: the gunzip-refusing externals turn the bare magic
header into the gzip error, and the stray byte `0xFF` into the
encoding error. -/
theorem from_bytes_decoding_errors_witness :
    RawEvent.from_bytes extGzFail q0 [0x1f, 0x8b, 0x08] =
      .error (.RequestDecodingError "invalid gzip data") ∧
    RawEvent.from_bytes extGzFail q0 [0xFF] =
      .error (.RequestDecodingError "invalid body encoding") :=
  ⟨(from_bytes_decoding_errors extGzFail q0 [0x1f, 0x8b, 0x08]).1
     (by decide) rfl,
   (from_bytes_decoding_errors extGzFail q0 [0xFF]).2.1
     (by decide) rfl⟩

/-- C7: when the decoded text is rejected — by the JSON parser itself,
or by matching neither an event array nor a single event — the decode
fails with a parse error carrying the very message of the parser. -/
theorem parse_error_detail (ext : Externals) (q : EventQuery)
    (b : List Nat) (s : String) :
    decodePayload ext b = .ok s →
    ((∀ msg, ext.parseJson s = .error msg →
        RawEvent.from_bytes ext q b =
          .error (.RequestParseError msg)) ∧
     (∀ j, ext.parseJson s = .ok j →
        RawRequest.fromJson ext.parseUuid j = none →
        RawEvent.from_bytes ext q b =
          .error (.RequestParseError untaggedVariantError))) := by
  intro hp
  constructor
  · intro msg hmsg
    simp [RawEvent.from_bytes, hp, hmsg, jsonErrorToCaptureError]
  · intro j hj hnone
    simp [RawEvent.from_bytes, hp, hj, hnone, jsonErrorToCaptureError]

/-- Externals whose parser always reports a syntax error. -/
def extParseFail : Externals :=
  ⟨fun _ => none, fun _ => .error "expected value at line 1 column 1",
   noUuid⟩

/-- Externals whose parser returns a JSON number, a document matching
neither request shape. -/
def extShapeFail : Externals :=
  ⟨fun _ => none, fun _ => .ok (Json.num 5), noUuid⟩

/-- Externals whose parser returns the nine-element positional array
with `event` the string `x` and the other fields null or empty. -/
def extSeqEvent : Externals :=
  ⟨fun _ => none,
   fun _ => .ok (Json.arr [Json.null, Json.null, Json.null,
     Json.str "x", Json.obj [], Json.null, Json.null, Json.null,
     Json.null]), noUuid⟩

/-- The record denoted positionally by that nine-element array. -/
def posEvent : RawEvent :=
  ⟨none, none, none, "x", [], none, none, none, none⟩

/-- Witness for C7 on the one-byte buffer `A`: a syntax error is
carried verbatim, and a shape mismatch carries the untagged-enum
message — while a nine-element positional array is no shape mismatch:
it deserializes as one event through the sequence visitor, so no
parse error is produced there. -/
theorem parse_error_detail_witness :
    RawEvent.from_bytes extParseFail q0 [0x41] =
      .error (.RequestParseError "expected value at line 1 column 1") ∧
    RawEvent.from_bytes extShapeFail q0 [0x41] =
      .error (.RequestParseError untaggedVariantError) ∧
    RawEvent.from_bytes extSeqEvent q0 [0x41] = .ok [posEvent] :=
  ⟨(parse_error_detail extParseFail q0 [0x41] "A" rfl).1 _ rfl,
   (parse_error_detail extShapeFail q0 [0x41] "A" rfl).2
     (Json.num 5) rfl rfl,
   rfl⟩

/-- C4: normalization of a JSON object whose record parses yields the
singleton of that record, and of a JSON array all of whose members
parse yields exactly those records, in order and in equal number. -/
theorem normalize_shapes (pu : String → Option Uuid)
    (fields : List (String × Json)) (js : List Json) (e : RawEvent)
    (es : List RawEvent) :
    (RawEvent.fromJson pu (.obj fields) = some e →
      (RawRequest.fromJson pu (.obj fields)).map RawRequest.events =
        some [e]) ∧
    (js.mapM (RawEvent.fromJson pu) = some es →
      (RawRequest.fromJson pu (.arr js)).map RawRequest.events =
        some es ∧
      es.length = js.length) := by
  constructor
  · intro h
    simp [RawRequest.fromJson, decodeEventVec, h, RawRequest.events]
  · intro h
    refine ⟨?_, length_of_mapM_eq_some _ js es h⟩
    have hv : decodeEventVec pu (.arr js) = some es := by
      simp only [decodeEventVec]
      exact h
    simp [RawRequest.fromJson, hv, RawRequest.events]

/-- The record decoded from the object with event `a` and token `t1`. -/
def ev_a : RawEvent :=
  ⟨some "t1", none, none, "a", [], none, none, none, none⟩

/-- The record decoded from the object with event `b` and token `t2`. -/
def ev_b : RawEvent :=
  ⟨some "t2", none, none, "b", [], none, none, none, none⟩

/-- Entries of a single-record JSON object. -/
def objFieldsA : List (String × Json) :=
  [("event", Json.str "a"), ("token", Json.str "t1")]

/-- A two-record batch document. -/
def js0 : List Json :=
  [Json.obj objFieldsA,
   Json.obj [("event", Json.str "b"), ("token", Json.str "t2")]]

/-- Witness for C4 on the batch scenario of the spec: the lone object
normalizes to a singleton, the two-element array to its two records
in order. -/
theorem normalize_shapes_witness :
    (RawRequest.fromJson noUuid (.obj objFieldsA)).map
      RawRequest.events = some [ev_a] ∧
    (RawRequest.fromJson noUuid (.arr js0)).map RawRequest.events =
      some [ev_a, ev_b] ∧
    ([ev_a, ev_b] : List RawEvent).length = js0.length :=
  ⟨(normalize_shapes noUuid objFieldsA js0 ev_a [ev_a, ev_b]).1 rfl,
   ((normalize_shapes noUuid objFieldsA js0 ev_a [ev_a, ev_b]).2
      rfl).1,
   ((normalize_shapes noUuid objFieldsA js0 ev_a [ev_a, ev_b]).2
      rfl).2⟩

/-- Externals whose parser produces a record object whose `event`
string is empty. -/
def extEmptyEvent : Externals :=
  ⟨fun _ => none, fun _ => .ok (Json.obj [("event", Json.str "")]),
   noUuid⟩

/-- The record with the empty event name. -/
def emptyNameEvent : RawEvent :=
  ⟨none, none, none, "", [], none, none, none, none⟩

/-- C5, as frozen, is false of the code: nothing rejects an empty
event-name string, so a successful decode can produce a record whose
`event` is `""`. -/
theorem event_nonempty_counterexample :
    RawEvent.from_bytes extEmptyEvent q0 [0x41] =
      .ok [emptyNameEvent] ∧
    emptyNameEvent.event = "" :=
  ⟨rfl, rfl⟩

/-- C5 (amended: the event name is required but may be empty): a
record object carrying no `event` key fails to decode, so the `event` field of every decoded record was present in the input — though
nothing forbids it from being the empty string. -/
theorem event_field_required (pu : String → Option Uuid)
    (fields : List (String × Json)) :
    findField ["event"] fields = none →
    RawEvent.fromJson pu (.obj fields) = none := by
  intro h
  simp only [RawEvent.fromJson]
  split
  · simp [h, option_bind_const_none]
  · rfl

/-- Witness for the amended C5: an object with only a token fails. -/
theorem event_field_required_witness :
    RawEvent.fromJson noUuid (Json.obj [("token", Json.str "t")]) =
      none :=
  event_field_required noUuid [("token", Json.str "t")] rfl

end Capture
